import Mathlib

/-!
Shallow embedding of the client-side ADB host-protocol library
(crate `adb`): socket address specifiers (`src/core/socketspec.rs`),
hex-length-prefixed framing and the device-list parser
(`src/client/mod.rs`), and the shell-v2 packet multiplexer
(`src/client/shell/protocol.rs`).

Strings from the source are modelled as `List Char`; byte streams as
`List Nat` (every element standing for one byte, `< 256` where the
source guarantees it).  Fallible operations return `Except Error`.
-/

namespace Adb

/-! ### Error taxonomy (`src/core/error.rs`)

`std::io::Error` values are reduced to the error kind the source
constructs them with: `InvalidData` for the two explicit
`io::Error::new(InvalidData, ..)` sites, `UnexpectedEof` for a
`read_exact` on an exhausted stream. -/

inductive IoKind where
  | InvalidData
  | UnexpectedEof
deriving DecidableEq, Repr

inductive Error where
  | UnexpectedData (msg : String)
  | ServiceError (msg : String)
  | UnimplementedOperation (msg : String)
  | SocketSpecInvalid
  | SocketSpecMissingHost
  | SocketSpecUnsupportedType
  | IoError (kind : IoKind)
deriving DecidableEq, Repr

/-! ### String utilities (`src/util/mod.rs` and `str` methods) -/

/-- `ConsumePrefix::consume_prefix`: if `s` starts with `pre`, the part
after it. -/
def consumeStart (pre s : List Char) : Option (List Char) :=
  if pre.isPrefixOf s then some (s.drop pre.length) else none

/-- `str::split_once` on a single-character pattern: split at the first
occurrence of `c`. -/
def splitOnceChar (c : Char) : List Char → Option (List Char × List Char)
  | [] => none
  | x :: xs =>
    if x = c then some ([], xs)
    else (splitOnceChar c xs).map (fun p => (x :: p.1, p.2))

/-- Position of the first occurrence of `c` (`str::find` on a char). -/
def findChar (c : Char) : List Char → Option Nat
  | [] => none
  | x :: xs => if x = c then some 0 else (findChar c xs).map (· + 1)

/-- Starting positions (ascending) at which `pat` occurs in `s`. -/
def occurrencesOf (pat s : List Char) : List Nat :=
  (List.range (s.length + 1)).filter (fun i => pat.isPrefixOf (s.drop i))

/-- `SplitOnce::rsplit_once`: split around the last occurrence of `pat`,
returning `(tail after pat, head before pat)` — the order the source's
`rsplitn(2, pat)`-based helper yields. -/
def rsplitOnceStr (pat s : List Char) : Option (List Char × List Char) :=
  (occurrencesOf pat s).getLast?.map
    (fun i => (s.drop (i + pat.length), s.take i))

/-- Decimal digits of `s` interpreted as a number (no sign handling). -/
def digitsToNat (s : List Char) : Nat :=
  s.foldl (fun acc c => acc * 10 + (c.toNat - 48)) 0

/-- Rust `str::parse` for an unsigned integer type with maximum `bound`
(exclusive): an optional leading `+`, then at least one ASCII decimal
digit; overflow beyond the type's range fails. -/
def parseUnsigned (bound : Nat) (s : List Char) : Option Nat :=
  let digits := if s.head? = some '+' then s.tail else s
  if digits.isEmpty then none
  else if digits.all Char.isDigit then
    let v := digitsToNat digits
    if v < bound then some v else none
  else none

/-- `str::parse::<u16>`. -/
def parseU16 (s : List Char) : Option Nat := parseUnsigned 65536 s

/-- `str::parse::<u64>`. -/
def parseU64 (s : List Char) : Option Nat := parseUnsigned (2 ^ 64) s

/-! ### SocketSpec (`src/core/socketspec.rs`) -/

inductive SocketSpec where
  | Tcp (host : Option (List Char)) (port : Nat)
  | UnixAbstract (path : List Char)
  | UnixFilesystem (path : List Char)
  | Vsock (host : Option (List Char)) (port : Nat)
deriving DecidableEq, Repr

/-- `SocketSpec::tcp`. -/
def SocketSpec.tcp (host : Option (List Char)) (port : Nat) : SocketSpec :=
  SocketSpec.Tcp host port

/-- `SocketSpec::unix_abstract`. -/
def SocketSpec.unix_abstract (path : List Char) : SocketSpec :=
  SocketSpec.UnixAbstract path

/-- `SocketSpec::unix_filesystem`.  The source constructor builds
`SocketSpec::UnixAbstract { path }` (not `UnixFilesystem`); the
embedding reproduces that. -/
def SocketSpec.unix_filesystem (path : List Char) : SocketSpec :=
  SocketSpec.UnixAbstract path

/-- The `tcp:` arm of `TryFrom<&str> for SocketSpec`, applied to the
text after the `tcp:` prefix. -/
def parseTcpTail (tail : List Char) : Except Error SocketSpec :=
  match parseU16 tail with
  | some port => .ok (SocketSpec.tcp none port)
  | none =>
    let split : Except Error (List Char × List Char) :=
      if tail.head? = some '[' then
        match findChar ']' tail with
        | none => .error .SocketSpecInvalid
        | some close => .ok (tail.take (close + 1), tail.drop (close + 1))
      else
        match findChar ':' tail with
        | none => .error .SocketSpecInvalid
        | some colon => .ok (tail.take colon, tail.drop colon)
    match split with
    | .error e => .error e
    | .ok (addr, rest) =>
      match rest with
      | ':' :: portStr =>
        match parseU16 portStr with
        | some port => .ok (SocketSpec.tcp (some addr) port)
        | none => .error .SocketSpecInvalid
      | _ => .error .SocketSpecInvalid

/-- `TryFrom<&str> for SocketSpec`. -/
def socketSpecTryFrom (value : List Char) : Except Error SocketSpec :=
  match consumeStart "tcp:".data value with
  | some tail => parseTcpTail tail
  | none =>
    match consumeStart "localabstract:".data value with
    | some tail => .ok (SocketSpec.unix_abstract tail)
    | none =>
      match consumeStart "localfilesystem:".data value with
      | some tail => .ok (SocketSpec.unix_filesystem tail)
      | none =>
        match consumeStart "local:".data value with
        | some tail => .ok (SocketSpec.unix_filesystem tail)
        | none => .error .SocketSpecInvalid

/-- Decimal rendering of a positive number, most significant digit
first (empty for 0). -/
def decDigitsCore (n : Nat) : List Char :=
  if h : n = 0 then []
  else decDigitsCore (n / 10) ++ [Char.ofNat (48 + n % 10)]
decreasing_by exact Nat.div_lt_self (Nat.pos_of_ne_zero h) (by decide)

/-- Decimal rendering of a `Nat` as `format!("{}")` produces it. -/
def decDigits (n : Nat) : List Char :=
  if n = 0 then ['0'] else decDigitsCore n

/-- `Display for SocketSpec`.  The source writes the `localabstract:`
scheme for both Unix variants (the `UnixFilesystem` arm is a copy-paste
of the `UnixAbstract` arm); the embedding reproduces that. -/
def formatSocketSpec : SocketSpec → List Char
  | .Tcp (some h) port => "tcp:".data ++ h ++ [':'] ++ decDigits port
  | .Tcp none port => "tcp:".data ++ decDigits port
  | .UnixAbstract path => "localabstract:".data ++ path
  | .UnixFilesystem path => "localabstract:".data ++ path
  | .Vsock (some h) port => "vsock:".data ++ h ++ [':'] ++ decDigits port
  | .Vsock none port => "vsock:".data ++ decDigits port

/-- What `SocketSpec::connect` does before any I/O can occur, per
variant (non-Windows build of `connect_unix_stream`).  The `dial*`
actions abstract the attempted connection; `panics` is the
`unimplemented!` macro. -/
inductive ConnectAction where
  | err (e : Error)
  | panics
  | dialTcp (host : List Char) (port : Nat)
  | dialUnix (path : List Char)
deriving DecidableEq, Repr

/-- Dispatch of `SocketSpec::connect`: `Tcp` without a host fails with
`SocketSpecMissingHost`; `UnixAbstract` dials the path with a leading
NUL; `UnixFilesystem` dials the path as-is; `Vsock` hits
`unimplemented!`. -/
def connectAction : SocketSpec → ConnectAction
  | .Tcp none _ => .err .SocketSpecMissingHost
  | .Tcp (some h) port => .dialTcp h port
  | .UnixAbstract path => .dialUnix (Char.ofNat 0 :: path)
  | .UnixFilesystem path => .dialUnix path
  | .Vsock _ _ => .panics

/-! ### Supporting lemmas -/

instance {ε α : Type} [DecidableEq ε] [DecidableEq α] : DecidableEq (Except ε α)
  | .error e, .error f =>
    match decEq e f with
    | isTrue h => isTrue (by rw [h])
    | isFalse h => isFalse (fun hh => h (Except.error.inj hh))
  | .error _, .ok _ => isFalse (fun hh => Except.noConfusion hh)
  | .ok _, .error _ => isFalse (fun hh => Except.noConfusion hh)
  | .ok x, .ok y =>
    match decEq x y with
    | isTrue h => isTrue (by rw [h])
    | isFalse h => isFalse (fun hh => h (Except.ok.inj hh))

theorem consumeStart_nil_pre (s : List Char) : consumeStart [] s = some s := by
  simp [consumeStart]

theorem consumeStart_cons (c d : Char) (cs ds : List Char) :
    consumeStart (c :: cs) (d :: ds) = if c = d then consumeStart cs ds else none := by
  by_cases h : c = d
  · subst h
    simp [consumeStart, List.isPrefixOf_cons₂]
  · simp [consumeStart, List.isPrefixOf_cons₂, h]

theorem consumeStart_cons_nil (c : Char) (cs : List Char) :
    consumeStart (c :: cs) [] = none := by
  simp [consumeStart]

theorem consumeStart_append (p s : List Char) : consumeStart p (p ++ s) = some s := by
  induction p with
  | nil => simp [consumeStart_nil_pre]
  | cons c cs ih => simp [consumeStart_cons, ih]

theorem parseUnsigned_none_of_mem (bound : Nat) (s : List Char) (c : Char)
    (hmem : c ∈ s) (hdig : c.isDigit = false) (hplus : c ≠ '+') :
    parseUnsigned bound s = none := by
  have hdigits : c ∈ (if s.head? = some '+' then s.tail else s) := by
    by_cases hc : s.head? = some '+'
    · rw [if_pos hc]
      cases s with
      | nil => cases hmem
      | cons x xs =>
        simp only [List.head?_cons, Option.some.injEq] at hc
        rcases List.mem_cons.mp hmem with h | h
        · exact absurd (h.trans hc) hplus
        · exact h
    · rw [if_neg hc]
      exact hmem
  have hne : (if s.head? = some '+' then s.tail else s).isEmpty = false := by
    cases hd : (if s.head? = some '+' then s.tail else s) with
    | nil => rw [hd] at hdigits; cases hdigits
    | cons a as => rfl
  have hall : (if s.head? = some '+' then s.tail else s).all Char.isDigit = false :=
    List.all_eq_false.mpr ⟨c, hdigits, by simp [hdig]⟩
  simp [parseUnsigned, hne, hall]

theorem findChar_eq_none_of_not_mem (c : Char) (s : List Char) (h : c ∉ s) :
    findChar c s = none := by
  induction s with
  | nil => rfl
  | cons x xs ih =>
    have hx : ¬x = c := fun hh => h (hh ▸ List.mem_cons_self x xs)
    have hxs : c ∉ xs := fun hh => h (List.mem_cons_of_mem x hh)
    simp [findChar, hx, ih hxs]

theorem findChar_append_cons (c : Char) (xs ys : List Char) (h : c ∉ xs) :
    findChar c (xs ++ c :: ys) = some xs.length := by
  induction xs with
  | nil => simp [findChar]
  | cons x xt ih =>
    have hx : ¬x = c := fun hh => h (hh ▸ List.mem_cons_self x xt)
    have hxt : c ∉ xt := fun hh => h (List.mem_cons_of_mem x hh)
    simp [findChar, hx, ih hxt]

theorem socketSpecTryFrom_tcp (s : List Char) :
    socketSpecTryFrom ("tcp:".data ++ s) = parseTcpTail s := by
  simp [socketSpecTryFrom, consumeStart_cons, consumeStart_nil_pre]

theorem socketSpecTryFrom_localabstract (s : List Char) :
    socketSpecTryFrom ("localabstract:".data ++ s) = .ok (SocketSpec.UnixAbstract s) := by
  simp [socketSpecTryFrom, consumeStart_cons, consumeStart_nil_pre, SocketSpec.unix_abstract]

/-! ### Claim theorems: SocketSpec -/

/-- C6: TCP address parsing follows the stated grammar: `tcp:PORT` with
a valid u16 PORT yields hostless TCP (and `tcp:`, `tcp:-1`, `tcp:65536`
fail); `tcp:HOST:PORT` yields TCP with that host, brackets extending
the host through `]` with `:` required immediately after; the listed
boundary inputs behave as stated. -/
theorem C6_tcp_grammar :
    (∀ s p, parseU16 s = some p →
      socketSpecTryFrom ("tcp:".data ++ s) = .ok (SocketSpec.Tcp none p)) ∧
    (∀ host ps p, parseU16 ps = some p → ':' ∉ host → host.head? ≠ some '[' →
      socketSpecTryFrom ("tcp:".data ++ (host ++ ':' :: ps)) =
        .ok (SocketSpec.Tcp (some host) p)) ∧
    (∀ inner ps p, parseU16 ps = some p → ']' ∉ inner →
      socketSpecTryFrom ("tcp:".data ++ ('[' :: inner ++ ']' :: ':' :: ps)) =
        .ok (SocketSpec.Tcp (some ('[' :: inner ++ [']'])) p)) ∧
    socketSpecTryFrom "tcp:".data = .error .SocketSpecInvalid ∧
    socketSpecTryFrom "tcp:-1".data = .error .SocketSpecInvalid ∧
    socketSpecTryFrom "tcp:65536".data = .error .SocketSpecInvalid ∧
    socketSpecTryFrom "tcp:5037".data = .ok (SocketSpec.Tcp none 5037) ∧
    socketSpecTryFrom "tcp:localhost:1234".data =
      .ok (SocketSpec.Tcp (some "localhost".data) 1234) ∧
    socketSpecTryFrom "tcp:[::1]:1234".data =
      .ok (SocketSpec.Tcp (some "[::1]".data) 1234) ∧
    socketSpecTryFrom "tcp:[::1]".data = .error .SocketSpecInvalid ∧
    socketSpecTryFrom "tcp:localhost".data = .error .SocketSpecInvalid ∧
    socketSpecTryFrom "tcp:localhost:".data = .error .SocketSpecInvalid ∧
    socketSpecTryFrom "tcp:::1:1234".data = .error .SocketSpecInvalid := by
  refine ⟨?_, ?_, ?_, by decide, by decide, by decide, by decide, by decide,
    by decide, by decide, by decide, by decide, by decide⟩
  · intro s p h
    rw [socketSpecTryFrom_tcp]
    simp [parseTcpTail, h, SocketSpec.tcp]
  · intro host ps p hp hcolon hbr
    have hfail : parseU16 (host ++ ':' :: ps) = none :=
      parseUnsigned_none_of_mem 65536 _ ':'
        (List.mem_append.mpr (Or.inr (List.mem_cons_self _ _))) (by decide) (by decide)
    have hfind : findChar ':' (host ++ ':' :: ps) = some host.length :=
      findChar_append_cons ':' host ps hcolon
    rw [socketSpecTryFrom_tcp]
    simp [parseTcpTail, hfail, hbr, hfind, List.take_left, List.drop_left, hp,
      SocketSpec.tcp]
  · intro inner ps p hp hbracket
    have hmem : '[' ∈ '[' :: inner ++ ']' :: ':' :: ps := List.mem_cons_self _ _
    have hfail : parseU16 ('[' :: inner ++ ']' :: ':' :: ps) = none :=
      parseUnsigned_none_of_mem 65536 _ '[' hmem (by decide) (by decide)
    have hnotmem : ']' ∉ '[' :: inner := by
      intro hh
      rcases List.mem_cons.mp hh with h | h
      · exact absurd h.symm (by decide)
      · exact hbracket h
    have hfail' : parseU16 ('[' :: (inner ++ ']' :: ':' :: ps)) = none := by
      simpa using hfail
    have hfind' : findChar ']' ('[' :: (inner ++ ']' :: ':' :: ps)) = some (inner.length + 1) := by
      have := findChar_append_cons ']' ('[' :: inner) (':' :: ps) hnotmem
      simpa using this
    have hshape : inner ++ ']' :: ':' :: ps = (inner ++ [']']) ++ ':' :: ps := by
      simp
    have htake' : List.take (inner.length + 1) (inner ++ ']' :: ':' :: ps) = inner ++ [']'] := by
      rw [hshape]
      exact List.take_left' (by simp)
    have hdrop' : List.drop (inner.length + 1) (inner ++ ']' :: ':' :: ps) = ':' :: ps := by
      rw [hshape]
      exact List.drop_left' (by simp)
    rw [socketSpecTryFrom_tcp]
    simp [parseTcpTail, hfail', hfind', htake', hdrop', hp, SocketSpec.tcp]

/-- C6 witness: the general clauses of `C6_tcp_grammar` instantiated at
concrete inputs, each hypothesis discharged by evaluation. -/
theorem C6_tcp_grammar_witness :
    socketSpecTryFrom ("tcp:".data ++ "5037".data) = .ok (SocketSpec.Tcp none 5037) ∧
    socketSpecTryFrom ("tcp:".data ++ ("myhost".data ++ ':' :: "443".data)) =
      .ok (SocketSpec.Tcp (some "myhost".data) 443) ∧
    socketSpecTryFrom ("tcp:".data ++ ('[' :: "::1".data ++ ']' :: ':' :: "99".data)) =
      .ok (SocketSpec.Tcp (some ('[' :: "::1".data ++ [']'])) 99) :=
  ⟨C6_tcp_grammar.1 "5037".data 5037 (by decide),
   C6_tcp_grammar.2.1 "myhost".data "443".data 443 (by decide) (by decide) (by decide),
   C6_tcp_grammar.2.2.1 "::1".data "99".data 99 (by decide) (by decide)⟩

/-- C4 evaluation: parsing `localfilesystem:foo` (and `local:foo`) goes
through `SocketSpec::unix_filesystem`, which constructs the
`UnixAbstract` variant, not `UnixFilesystem` as the claim states. -/
theorem C4_localfilesystem_eval :
    socketSpecTryFrom "localfilesystem:foo".data = .ok (SocketSpec.UnixAbstract "foo".data) ∧
    socketSpecTryFrom "local:foo".data = .ok (SocketSpec.UnixAbstract "foo".data) ∧
    SocketSpec.UnixAbstract "foo".data ≠ SocketSpec.UnixFilesystem "foo".data := by
  refine ⟨by decide, by decide, by decide⟩

/-- C5 evaluation: formatting `UnixFilesystem{"foo"}` produces
`localabstract:foo` (the Display arm is a copy-paste of the
`UnixAbstract` arm), which parses back to `UnixAbstract{"foo"}`, so
`parse(format(s)) ≠ s` for the `UnixFilesystem` variant.  The
`UnixAbstract` variant does round-trip. -/
theorem C5_roundtrip_eval :
    socketSpecTryFrom (formatSocketSpec (SocketSpec.UnixFilesystem "foo".data)) =
      .ok (SocketSpec.UnixAbstract "foo".data) ∧
    SocketSpec.UnixAbstract "foo".data ≠ SocketSpec.UnixFilesystem "foo".data ∧
    (∀ path, socketSpecTryFrom (formatSocketSpec (SocketSpec.UnixAbstract path)) =
      .ok (SocketSpec.UnixAbstract path)) := by
  refine ⟨by decide, by decide, ?_⟩
  intro path
  exact socketSpecTryFrom_localabstract path

/-- C8 counterexample: `SocketSpec::connect` on a `Vsock` spec executes
`unimplemented!` — a panic — rather than returning
`SocketSpecUnsupportedType` as the claim states. -/
theorem C8_vsock_counterexample :
    connectAction (SocketSpec.Vsock none 1) = ConnectAction.panics ∧
    connectAction (SocketSpec.Vsock none 1) ≠
      ConnectAction.err Error.SocketSpecUnsupportedType := by
  refine ⟨rfl, by decide⟩

/-- C8 amended: dialing a `Vsock` SocketSpec panics (`unimplemented!`)
on every platform; it does not attempt a connection and does not return
an error value. -/
theorem C8_vsock_panics (host : Option (List Char)) (port : Nat) :
    connectAction (SocketSpec.Vsock host port) = ConnectAction.panics := rfl

/-! ### Framing primitives (`src/client/mod.rs`) -/

/-- Lowercase hex digit character for `n < 16`. -/
def hexDigitCh (n : Nat) : Char :=
  if n < 10 then Char.ofNat (48 + n) else Char.ofNat (87 + n)

/-- Hex digits of a positive number, most significant first (empty for
0). -/
def hexDigitsCore (n : Nat) : List Char :=
  if _h : n = 0 then []
  else hexDigitsCore (n / 16) ++ [hexDigitCh (n % 16)]
decreasing_by exact Nat.div_lt_self (Nat.pos_of_ne_zero _h) (by decide)

/-- Hex rendering of a `Nat` with no padding (`format!("{:x}")`). -/
def hexDigits (n : Nat) : List Char :=
  if n = 0 then ['0'] else hexDigitsCore n

/-- `format!("{:04x}", n)`: hex, zero-padded on the left to a MINIMUM
width of 4 — longer values are emitted in full. -/
def format04x (n : Nat) : List Char :=
  List.replicate (4 - (hexDigits n).length) '0' ++ hexDigits n

/-- `write_hex_length_prefixed`: emit the `%04x` rendering of the
payload length as ASCII bytes, then the payload.  The socket sink is
modelled as infallible, so the pure computation never constructs an
error; the source returns `Result` only to propagate socket write
failures. -/
def write_hex_length_prefixed (payload : List Nat) : Except Error (List Nat) :=
  .ok ((format04x payload.length).map Char.toNat ++ payload)

/-- One scalar of UTF-8 decoding per `core::str` validation: the code
point and the remaining bytes, or `none` on invalid input. -/
def utf8Decode : List Nat → Option (List Char)
  | [] => some []
  | b0 :: rest =>
    if b0 < 0x80 then (utf8Decode rest).map (Char.ofNat b0 :: ·)
    else if b0 < 0xC2 then none
    else if b0 < 0xE0 then
      match rest with
      | b1 :: rest2 =>
        if 0x80 ≤ b1 ∧ b1 < 0xC0 then
          (utf8Decode rest2).map (Char.ofNat ((b0 - 0xC0) * 64 + (b1 - 0x80)) :: ·)
        else none
      | [] => none
    else if b0 < 0xF0 then
      match rest with
      | b1 :: b2 :: rest2 =>
        let lo1 := if b0 = 0xE0 then 0xA0 else 0x80
        let hi1 := if b0 = 0xED then 0xA0 else 0xC0
        if lo1 ≤ b1 ∧ b1 < hi1 ∧ 0x80 ≤ b2 ∧ b2 < 0xC0 then
          (utf8Decode rest2).map
            (Char.ofNat ((b0 - 0xE0) * 4096 + (b1 - 0x80) * 64 + (b2 - 0x80)) :: ·)
        else none
      | _ => none
    else if b0 < 0xF5 then
      match rest with
      | b1 :: b2 :: b3 :: rest2 =>
        let lo1 := if b0 = 0xF0 then 0x90 else 0x80
        let hi1 := if b0 = 0xF4 then 0x90 else 0xC0
        if lo1 ≤ b1 ∧ b1 < hi1 ∧ 0x80 ≤ b2 ∧ b2 < 0xC0 ∧ 0x80 ≤ b3 ∧ b3 < 0xC0 then
          (utf8Decode rest2).map
            (Char.ofNat ((b0 - 0xF0) * 262144 + (b1 - 0x80) * 4096 +
              (b2 - 0x80) * 64 + (b3 - 0x80)) :: ·)
        else none
      | _ => none
    else none

/-- Hex value of one character, as `char::to_digit(16)`. -/
def hexVal (c : Char) : Option Nat :=
  if '0' ≤ c ∧ c ≤ '9' then some (c.toNat - 48)
  else if 'a' ≤ c ∧ c ≤ 'f' then some (c.toNat - 87)
  else if 'A' ≤ c ∧ c ≤ 'F' then some (c.toNat - 55)
  else none

/-- `usize::from_str_radix(s, 16)`: optional leading `+`, at least one
hex digit, value within the 64-bit range. -/
def fromStrRadix16 (s : List Char) : Option Nat :=
  let digits := if s.head? = some '+' then s.tail else s
  if digits.isEmpty then none
  else
    match digits.foldl
        (fun acc c =>
          match acc, hexVal c with
          | some a, some v => some (a * 16 + v)
          | _, _ => none)
        (some 0) with
    | some v => if v < 2 ^ 64 then some v else none
    | none => none

/-- `read_hex_length_prefixed` on a finite input stream: read exactly 4
bytes, interpret them as UTF-8 text and parse as hex (both failures are
wrapped in `io::Error::new(InvalidData, ..)` and surface as `IoError`),
then read exactly that many further bytes; the remainder of the stream
is returned alongside. -/
def read_hex_length_prefixed (input : List Nat) : Except Error (List Nat × List Nat) :=
  if input.length < 4 then .error (.IoError .UnexpectedEof)
  else
    match utf8Decode (input.take 4) with
    | none => .error (.IoError .InvalidData)
    | some chars =>
      match fromStrRadix16 chars with
      | none => .error (.IoError .InvalidData)
      | some n =>
        if (input.drop 4).length < n then .error (.IoError .UnexpectedEof)
        else .ok ((input.drop 4).take n, (input.drop 4).drop n)

/-- Discriminator: is this result an `UnexpectedData` error? -/
def isUnexpectedDataResult {α : Type} : Except Error α → Bool
  | .error (.UnexpectedData _) => true
  | _ => false

theorem hexDigitsCore_expand (n : Nat) (h : n ≠ 0) :
    hexDigitsCore n = hexDigitsCore (n / 16) ++ [hexDigitCh (n % 16)] := by
  rw [hexDigitsCore]
  simp [h]

theorem hexDigitsCore_length_ge (k : Nat) :
    ∀ n, 16 ^ k ≤ n → k + 1 ≤ (hexDigitsCore n).length := by
  induction k with
  | zero =>
    intro n hn
    have hne : n ≠ 0 := by omega
    rw [hexDigitsCore_expand n hne]
    simp
  | succ k ih =>
    intro n hn
    have hp16 : 0 < 16 ^ (k + 1) := by positivity
    have hne : n ≠ 0 := by omega
    have hdiv : 16 ^ k ≤ n / 16 := by
      rw [Nat.le_div_iff_mul_le (by decide : 0 < 16)]
      calc 16 ^ k * 16 = 16 ^ (k + 1) := (pow_succ 16 k).symm
        _ ≤ n := hn
    have := ih (n / 16) hdiv
    rw [hexDigitsCore_expand n hne]
    simp only [List.length_append, List.length_cons, List.length_nil]
    omega

/-! ### Claim theorems: framing primitives -/

/-- C10: for every payload longer than 0xFFFF bytes,
`write_hex_length_prefixed` still succeeds, emitting a length prefix of
more than 4 hex digits followed by the payload — `%04x` is only a
minimum width and no length check is performed. -/
theorem C10_long_payload (payload : List Nat) (h : 65535 < payload.length) :
    ∃ out pre, write_hex_length_prefixed payload = .ok out ∧
      out = pre ++ payload ∧ 4 < pre.length := by
  refine ⟨_, (format04x payload.length).map Char.toNat, rfl, rfl, ?_⟩
  have h16 : (16 : Nat) ^ 4 = 65536 := by norm_num
  have h5 : 5 ≤ (hexDigitsCore payload.length).length :=
    hexDigitsCore_length_ge 4 payload.length (by omega)
  have hne : ¬payload.length = 0 := by omega
  rw [List.length_map]
  simp only [format04x, hexDigits, if_neg hne, List.length_append, List.length_replicate]
  omega

/-- C10 witness: `C10_long_payload` applied to a 65536-byte payload. -/
theorem C10_long_payload_witness :
    65535 < (List.replicate 65536 0).length ∧
    ∃ out pre, write_hex_length_prefixed (List.replicate 65536 (0 : Nat)) = .ok out ∧
      out = pre ++ List.replicate 65536 (0 : Nat) ∧ 4 < pre.length :=
  ⟨by rw [List.length_replicate]; omega,
   C10_long_payload (List.replicate 65536 0) (by rw [List.length_replicate]; omega)⟩

/-- C7 counterexample: on the non-hex ASCII length bytes `zzzz` the
source wraps the parse failure in `io::Error::new(InvalidData, ..)`,
which the `?` operator converts to `Error::IoError` — not
`UnexpectedData` as the claim states. -/
theorem C7_error_kind_counterexample :
    read_hex_length_prefixed [122, 122, 122, 122] = .error (.IoError .InvalidData) ∧
    isUnexpectedDataResult (read_hex_length_prefixed [122, 122, 122, 122]) = false := by
  refine ⟨by decide, by decide⟩

/-- C7 amended: when the 4 length bytes are not valid UTF-8 or do not
parse as hexadecimal, `read_hex_length_prefixed` fails with the
`IoError` kind (`io::ErrorKind::InvalidData`); when they parse as a
length N, it reads exactly N further bytes and returns them. -/
theorem C7_read_hex_behaviour (b0 b1 b2 b3 : Nat) (rest : List Nat) :
    (utf8Decode [b0, b1, b2, b3] = none →
      read_hex_length_prefixed (b0 :: b1 :: b2 :: b3 :: rest) =
        .error (.IoError .InvalidData)) ∧
    (∀ cs, utf8Decode [b0, b1, b2, b3] = some cs → fromStrRadix16 cs = none →
      read_hex_length_prefixed (b0 :: b1 :: b2 :: b3 :: rest) =
        .error (.IoError .InvalidData)) ∧
    (∀ cs n, utf8Decode [b0, b1, b2, b3] = some cs → fromStrRadix16 cs = some n →
      n ≤ rest.length →
      read_hex_length_prefixed (b0 :: b1 :: b2 :: b3 :: rest) =
        .ok (rest.take n, rest.drop n)) := by
  have hlen : ¬((b0 :: b1 :: b2 :: b3 :: rest).length < 4) := by simp
  have htake : (b0 :: b1 :: b2 :: b3 :: rest).take 4 = [b0, b1, b2, b3] := rfl
  have hdrop : (b0 :: b1 :: b2 :: b3 :: rest).drop 4 = rest := rfl
  refine ⟨?_, ?_, ?_⟩
  · intro hu
    simp [read_hex_length_prefixed, hlen, htake, hu]
  · intro cs hu hf
    simp [read_hex_length_prefixed, hlen, htake, hu, hf]
  · intro cs n hu hf hn
    have hge : ¬(rest.length < n) := by omega
    simp [read_hex_length_prefixed, hlen, htake, hdrop, hu, hf, hge]

/-- C7 witness: `C7_read_hex_behaviour` at the length bytes `0002`
followed by three further bytes. -/
theorem C7_read_hex_behaviour_witness :
    utf8Decode [48, 48, 48, 50] = some "0002".data ∧
    fromStrRadix16 "0002".data = some 2 ∧
    2 ≤ ([9, 9, 9] : List Nat).length ∧
    read_hex_length_prefixed (48 :: 48 :: 48 :: 50 :: [9, 9, 9]) =
      .ok (([9, 9, 9] : List Nat).take 2, ([9, 9, 9] : List Nat).drop 2) :=
  ⟨by decide, by decide, by decide,
    (C7_read_hex_behaviour 48 48 48 50 [9, 9, 9]).2.2 "0002".data 2
      (by decide) (by decide) (by decide)⟩

/-! ### Shell multiplexer (`src/client/shell/protocol.rs`)

The read half is modelled on a finite byte stream: a successful read
returns the decoded `ShellOutput` and the unconsumed remainder; a
failed `read_exact` (stream exhausted) surfaces the corresponding
`UnexpectedData` message from the source.  The write half returns the
bytes pushed to the socket and whether the half was closed. -/

inductive ShellInput where
  | Stdin (data : List Nat)
  | CloseStdin
  | WindowSizeChange (rows cols xpixels ypixels : Nat)
deriving DecidableEq, Repr

inductive ShellOutput where
  | Stdout (data : List Nat)
  | Stderr (data : List Nat)
  | Exit (code : Nat)
deriving DecidableEq, Repr

/-- `LittleEndian::write_u32` after `as u32`: the 4 little-endian bytes
of `n` truncated to 32 bits. -/
def u32leBytes (n : Nat) : List Nat :=
  [n % 256, n / 256 % 256, n / 65536 % 256, n / 16777216 % 256]

/-- `LittleEndian::read_u32` of four bytes (each `< 256`). -/
def readU32le (b0 b1 b2 b3 : Nat) : Nat :=
  b0 + b1 * 256 + b2 * 65536 + b3 * 16777216

/-- One shell-v2 frame: id byte, 4-byte little-endian length, payload. -/
def shellPacket (id : Nat) (payload : List Nat) : List Nat :=
  id :: u32leBytes payload.length ++ payload

/-- `ShellRead for ProtocolShellRead`: read the 1-byte id, the 4-byte
little-endian length, then that many payload bytes, and dispatch on the
id exactly as the source's `match FromPrimitive::from_u8(id[0])`. -/
def protocolShellRead (input : List Nat) : Except Error (ShellOutput × List Nat) :=
  match input with
  | id :: b0 :: b1 :: b2 :: b3 :: rest =>
    let len := readU32le b0 b1 b2 b3
    if rest.length < len then .error (.UnexpectedData "failed to read shell data")
    else
      let data := rest.take len
      let rest2 := rest.drop len
      if id = 0 then
        .error (.UnexpectedData "received unexpected Stdin packet from device")
      else if id = 1 then .ok (.Stdout data, rest2)
      else if id = 2 then .ok (.Stderr data, rest2)
      else if id = 3 then
        if data.length ≠ 1 then
          .error (.UnexpectedData
            ("received exit packet with incorrect size: " ++ Nat.repr data.length))
        else .ok (.Exit (data.headD 0), rest2)
      else if id = 4 then
        .error (.UnexpectedData "received unexpected CloseStdin packet from device")
      else
        .error (.UnexpectedData
          ("received unexpected packet from device: " ++ Nat.repr id))
  | [] => .error (.UnexpectedData "failed to read shell packet header")
  | _ => .error (.UnexpectedData "failed to read shell data length")

/-- `ShellWrite for ProtocolShellWrite`: `Stdin` emits one id-0 frame;
`WindowSizeChange` is a no-op; `CloseStdin` emits nothing and closes
the write half.  The socket sink is modelled as infallible. -/
def protocolShellWrite : ShellInput → Except Error (List Nat × Bool)
  | .Stdin data => .ok (0 :: u32leBytes data.length ++ data, false)
  | .WindowSizeChange _ _ _ _ => .ok ([], false)
  | .CloseStdin => .ok ([], true)

theorem readU32le_u32leBytes (n : Nat) (h : n < 2 ^ 32) :
    readU32le (n % 256) (n / 256 % 256) (n / 65536 % 256) (n / 16777216 % 256) = n := by
  unfold readU32le
  omega

/-- Evaluation of the read half on one well-formed frame followed by
trailing stream bytes. -/
theorem protocolShellRead_frame (id : Nat) (payload rest : List Nat)
    (h : payload.length < 2 ^ 32) :
    protocolShellRead (shellPacket id payload ++ rest) =
      (if id = 0 then
        .error (.UnexpectedData "received unexpected Stdin packet from device")
      else if id = 1 then .ok (.Stdout payload, rest)
      else if id = 2 then .ok (.Stderr payload, rest)
      else if id = 3 then
        if payload.length ≠ 1 then
          .error (.UnexpectedData
            ("received exit packet with incorrect size: " ++ Nat.repr payload.length))
        else .ok (.Exit (payload.headD 0), rest)
      else if id = 4 then
        .error (.UnexpectedData "received unexpected CloseStdin packet from device")
      else
        .error (.UnexpectedData
          ("received unexpected packet from device: " ++ Nat.repr id))) := by
  have hexp : shellPacket id payload ++ rest =
      id :: payload.length % 256 :: payload.length / 256 % 256 ::
        payload.length / 65536 % 256 :: payload.length / 16777216 % 256 ::
        (payload ++ rest) := by
    simp [shellPacket, u32leBytes]
  have hd : readU32le (payload.length % 256) (payload.length / 256 % 256)
      (payload.length / 65536 % 256) (payload.length / 16777216 % 256) = payload.length :=
    readU32le_u32leBytes _ h
  have hlt : ¬((payload ++ rest).length < payload.length) := by
    simp [List.length_append]
  rw [hexp]
  simp only [protocolShellRead, hd, hlt, if_false, List.take_left, List.drop_left]

/-! ### Claim theorems: shell multiplexer -/

/-- C1: packet dispatch of the protocol (v2) shell read half — id=1 is
Stdout, id=2 is Stderr, id=3 is Exit of the single payload byte when
the payload length is exactly 1 and otherwise the sized UnexpectedData
message (checked literally on the spec's frame
`03 02 00 00 00 01 02`), and id=0, id=4, and every id above 4 are
UnexpectedData. -/
theorem C1_shell_read_dispatch (payload rest : List Nat) (h : payload.length < 2 ^ 32) :
    protocolShellRead (shellPacket 1 payload ++ rest) = .ok (.Stdout payload, rest) ∧
    protocolShellRead (shellPacket 2 payload ++ rest) = .ok (.Stderr payload, rest) ∧
    (∀ b, protocolShellRead (shellPacket 3 [b] ++ rest) = .ok (.Exit b, rest)) ∧
    (payload.length ≠ 1 →
      protocolShellRead (shellPacket 3 payload ++ rest) =
        .error (.UnexpectedData
          ("received exit packet with incorrect size: " ++ Nat.repr payload.length))) ∧
    protocolShellRead [3, 2, 0, 0, 0, 1, 2] =
      .error (.UnexpectedData "received exit packet with incorrect size: 2") ∧
    protocolShellRead (shellPacket 0 payload ++ rest) =
      .error (.UnexpectedData "received unexpected Stdin packet from device") ∧
    protocolShellRead (shellPacket 4 payload ++ rest) =
      .error (.UnexpectedData "received unexpected CloseStdin packet from device") ∧
    (∀ id, 4 < id →
      protocolShellRead (shellPacket id payload ++ rest) =
        .error (.UnexpectedData
          ("received unexpected packet from device: " ++ Nat.repr id))) := by
  refine ⟨?_, ?_, ?_, ?_, by decide, ?_, ?_, ?_⟩
  · rw [protocolShellRead_frame 1 payload rest h]
    simp
  · rw [protocolShellRead_frame 2 payload rest h]
    simp
  · intro b
    rw [protocolShellRead_frame 3 [b] rest (by simp)]
    simp
  · intro hne
    rw [protocolShellRead_frame 3 payload rest h]
    simp [hne]
  · rw [protocolShellRead_frame 0 payload rest h]
    simp
  · rw [protocolShellRead_frame 4 payload rest h]
    simp
  · intro id hid
    rw [protocolShellRead_frame id payload rest h]
    have h0 : id ≠ 0 := by omega
    have h1 : id ≠ 1 := by omega
    have h2 : id ≠ 2 := by omega
    have h3 : id ≠ 3 := by omega
    have h4 : id ≠ 4 := by omega
    simp [h0, h1, h2, h3, h4]

/-- C1 witness: `C1_shell_read_dispatch` applied to a 2-byte payload
and a 1-byte trailing stream. -/
theorem C1_shell_read_dispatch_witness :
    protocolShellRead (shellPacket 1 [104, 105] ++ [9]) = .ok (.Stdout [104, 105], [9]) ∧
    protocolShellRead (shellPacket 3 [104, 105] ++ [9]) =
      .error (.UnexpectedData
        ("received exit packet with incorrect size: " ++ Nat.repr ([104, 105] : List Nat).length)) :=
  ⟨(C1_shell_read_dispatch [104, 105] [9] (by decide)).1,
   (C1_shell_read_dispatch [104, 105] [9] (by decide)).2.2.2.1 (by decide)⟩

/-- C2 counterexample: writing `CloseStdin` emits no bytes at all — the
source closes the write half without first sending the id=4 zero-length
frame `04 00 00 00 00` that the claim asserts. -/
theorem C2_closestdin_counterexample :
    protocolShellWrite ShellInput.CloseStdin = .ok ([], true) ∧
    protocolShellWrite ShellInput.CloseStdin ≠ .ok ([4, 0, 0, 0, 0], true) := by
  refine ⟨rfl, by decide⟩

/-- C2 amended: `Stdin(bytes)` emits the id byte 0, then 4 bytes whose
little-endian value is |bytes| (for |bytes| < 2^32), then the payload;
`CloseStdin` emits nothing and closes the write half (no id=4 frame is
sent); `WindowSizeChange` emits nothing and does not close. -/
theorem C2_write_framing (data : List Nat) (h : data.length < 2 ^ 32) :
    (∃ b0 b1 b2 b3, protocolShellWrite (ShellInput.Stdin data) =
        .ok (0 :: b0 :: b1 :: b2 :: b3 :: data, false) ∧
        readU32le b0 b1 b2 b3 = data.length ∧
        b0 < 256 ∧ b1 < 256 ∧ b2 < 256 ∧ b3 < 256) ∧
    protocolShellWrite ShellInput.CloseStdin = .ok ([], true) ∧
    (∀ r c x y, protocolShellWrite (ShellInput.WindowSizeChange r c x y) = .ok ([], false)) := by
  refine ⟨⟨data.length % 256, data.length / 256 % 256, data.length / 65536 % 256,
      data.length / 16777216 % 256, ?_, readU32le_u32leBytes _ h, ?_, ?_, ?_, ?_⟩,
      rfl, fun _ _ _ _ => rfl⟩
  · simp [protocolShellWrite, u32leBytes]
  · exact Nat.mod_lt _ (by decide)
  · exact Nat.mod_lt _ (by decide)
  · exact Nat.mod_lt _ (by decide)
  · exact Nat.mod_lt _ (by decide)

/-- C2 witness: `C2_write_framing` applied to the 1-byte payload `[7]`. -/
theorem C2_write_framing_witness :
    ∃ b0 b1 b2 b3, protocolShellWrite (ShellInput.Stdin [7]) =
      .ok (0 :: b0 :: b1 :: b2 :: b3 :: [7], false) ∧
      readU32le b0 b1 b2 b3 = ([7] : List Nat).length ∧
      b0 < 256 ∧ b1 < 256 ∧ b2 < 256 ∧ b3 < 256 :=
  (C2_write_framing [7] (by decide)).1

/-! ### Device model (`src/host/mod.rs`) -/

inductive DeviceType where
  | Bootloader
  | Device
  | Host
  | Recovery
  | Rescue
  | Sideload
deriving DecidableEq, Repr

inductive TransportType where
  | Offline
  | NoPermissions
  | Unauthorized
  | Authorizing
  | Connecting
  | Online (t : DeviceType)
deriving DecidableEq, Repr

structure DeviceDescription where
  serial : List Char
  id : Nat
  transport_type : TransportType
  device_path : Option (List Char)
  product : Option (List Char)
  model : Option (List Char)
  device : Option (List Char)
deriving DecidableEq, Repr

/-! ### Device-list parser (`Remote::devices`, `src/client/mod.rs`) -/

/-- One optional group `(?: key(\S+))?` of the attribute regex, where
`key` includes the leading space and trailing colon: match the literal
`key` followed by a greedy non-empty run of non-whitespace, or match
empty consuming nothing. -/
def matchOptGroup (key s : List Char) : Option (List Char) × List Char :=
  match consumeStart key s with
  | none => (none, s)
  | some rest =>
    let tok := rest.takeWhile (fun c => !c.isWhitespace)
    if tok.isEmpty then (none, s)
    else (some tok, rest.dropWhile (fun c => !c.isWhitespace))

structure AttrCaptures where
  device_path : Option (List Char)
  product : Option (List Char)
  model : Option (List Char)
  device : Option (List Char)
deriving DecidableEq, Repr

/-- `Regex::captures` for the source pattern
`(?P<device_path>\S+)(?: product:(?P<product>\S+))?(?: model:(?P<model>\S+))?(?: device:(?P<device>\S+))?`
under the regex crate's leftmost-first semantics: the overall match
starts at the first non-whitespace character; `\S+` greedily captures
that entire token and is never shortened, because every following group
is optional and the engine prefers earlier decisions; each optional
group then matches at the current position or is skipped. -/
def attrCaptures (s : List Char) : Option AttrCaptures :=
  let s1 := s.dropWhile Char.isWhitespace
  if s1.isEmpty then none
  else
    let dp := s1.takeWhile (fun c => !c.isWhitespace)
    let r0 := s1.dropWhile (fun c => !c.isWhitespace)
    let (prod, r1) := matchOptGroup " product:".data r0
    let (mdl, r2) := matchOptGroup " model:".data r1
    let (dev, _) := matchOptGroup " device:".data r2
    some ⟨some dp, prod, mdl, dev⟩

/-- The transport-state classification of `Remote::devices`: the five
state keywords are prefix-tested first (discarding the remainder), then
a `DeviceType` keyword followed by a space is consumed; anything else
is an `UnexpectedData` citing the whole line. -/
def parseTransportType (line middle : List Char) : Except Error (TransportType × List Char) :=
  if "offline".data.isPrefixOf middle then .ok (.Offline, [])
  else if "no permissions".data.isPrefixOf middle then .ok (.NoPermissions, [])
  else if "unauthorized".data.isPrefixOf middle then .ok (.Unauthorized, [])
  else if "authorizing".data.isPrefixOf middle then .ok (.Authorizing, [])
  else if "connecting".data.isPrefixOf middle then .ok (.Connecting, [])
  else
    match consumeStart "bootloader ".data middle with
    | some s => .ok (.Online .Bootloader, s)
    | none =>
      match consumeStart "device ".data middle with
      | some s => .ok (.Online .Device, s)
      | none =>
        match consumeStart "host ".data middle with
        | some s => .ok (.Online .Host, s)
        | none =>
          match consumeStart "recovery ".data middle with
          | some s => .ok (.Online .Recovery, s)
          | none =>
            match consumeStart "rescue ".data middle with
            | some s => .ok (.Online .Rescue, s)
            | none =>
              match consumeStart "sideload ".data middle with
              | some s => .ok (.Online .Sideload, s)
              | none =>
                .error (.UnexpectedData
                  (("failed to parse device type from device line '".data ++ line
                    ++ "'".data).asString))

/-- One iteration of the `Remote::devices` parsing loop on a non-empty
line: split the serial at the first space, right-split the transport id
at the last ` transport_id:`, parse it as u64, trim the middle, classify
the transport state, then capture attributes with the regex (skipped on
an empty tail). -/
def parseDeviceLine (line : List Char) : Except Error DeviceDescription :=
  match splitOnceChar ' ' line with
  | none =>
    .error (.UnexpectedData (("invalid device line: '".data ++ line ++ "'".data).asString))
  | some (serial, middle0) =>
    match rsplitOnceStr " transport_id:".data middle0 with
    | none =>
      .error (.UnexpectedData
        (("transport_id missing in device line: '".data ++ line ++ "'".data).asString))
    | some (tidStr, middle1) =>
      match parseU64 tidStr with
      | none =>
        .error (.UnexpectedData
          (("invalid transport id in device line: '".data ++ line ++ "'".data).asString))
      | some tid =>
        match parseTransportType line (middle1.dropWhile Char.isWhitespace) with
        | .error e => .error e
        | .ok (tt, tail) =>
          let captures := if tail.isEmpty then none else attrCaptures tail
          .ok { serial := serial
                id := tid
                transport_type := tt
                device_path := captures.bind (·.device_path)
                product := captures.bind (·.product)
                model := captures.bind (·.model)
                device := captures.bind (·.device) }

/-- `str::split('\n')` on the decoded body. -/
def splitOnNl : List Char → List (List Char)
  | [] => [[]]
  | c :: cs =>
    if c = '\n' then [] :: splitOnNl cs
    else
      match splitOnNl cs with
      | h :: t => (c :: h) :: t
      | [] => [[c]]

/-- The `Remote::devices` loop over the split lines: empty lines are
skipped, the first parse failure aborts the whole call, successful
descriptions are accumulated in input order. -/
def devicesGo : List (List Char) → Except Error (List DeviceDescription)
  | [] => .ok []
  | l :: ls =>
    if l.isEmpty then devicesGo ls
    else
      match parseDeviceLine l with
      | .error e => .error e
      | .ok d =>
        match devicesGo ls with
        | .error e => .error e
        | .ok ds => .ok (d :: ds)

/-- The parsing stage of `Remote::devices`, applied to the
UTF-8-lossy-decoded body returned for `host:devices-l`. -/
def devicesParse (body : List Char) : Except Error (List DeviceDescription) :=
  devicesGo (splitOnNl body)

/-- Discriminator: is this result any error? -/
def isErrorResult {α : Type} : Except Error α → Bool
  | .error _ => true
  | .ok _ => false

theorem parseTransportType_error_cites (line middle : List Char) (e : Error)
    (h : parseTransportType line middle = .error e) :
    ∃ p s, e = .UnexpectedData ((p ++ line ++ s).asString) := by
  unfold parseTransportType at h
  repeat' split at h
  all_goals
    first
      | exact Except.noConfusion h
      | exact ⟨_, _, (Except.error.inj h).symm⟩

theorem parseDeviceLine_error_cites (line : List Char) (e : Error)
    (h : parseDeviceLine line = .error e) :
    ∃ p s, e = .UnexpectedData ((p ++ line ++ s).asString) := by
  unfold parseDeviceLine at h
  split at h
  · exact ⟨_, _, (Except.error.inj h).symm⟩
  · split at h
    · exact ⟨_, _, (Except.error.inj h).symm⟩
    · split at h
      · exact ⟨_, _, (Except.error.inj h).symm⟩
      · split at h
        · rename_i e1 heq
          cases Except.error.inj h
          exact parseTransportType_error_cites _ _ _ heq
        · exact Except.noConfusion h

theorem devicesGo_first_error (ls : List (List Char))
    (h : ∃ l ∈ ls, l.isEmpty = false ∧ isErrorResult (parseDeviceLine l) = true) :
    ∃ l ∈ ls, l.isEmpty = false ∧
      ∃ e, parseDeviceLine l = .error e ∧ devicesGo ls = .error e := by
  induction ls with
  | nil =>
    rcases h with ⟨l, hl, _, _⟩
    exact absurd hl (List.not_mem_nil l)
  | cons x xs ih =>
    by_cases hx : x.isEmpty = true
    · have h' : ∃ l ∈ xs, l.isEmpty = false ∧ isErrorResult (parseDeviceLine l) = true := by
        rcases h with ⟨l, hl, hne, herr⟩
        rcases List.mem_cons.mp hl with rfl | hmem
        · rw [hx] at hne
          cases hne
        · exact ⟨l, hmem, hne, herr⟩
      rcases ih h' with ⟨l, hmem, hne, e, he, hgo⟩
      refine ⟨l, List.mem_cons_of_mem _ hmem, hne, e, he, ?_⟩
      simp [devicesGo, hx, hgo]
    · have hxf : x.isEmpty = false := by simpa using hx
      cases hp : parseDeviceLine x with
      | error e =>
        refine ⟨x, List.mem_cons_self x xs, hxf, e, hp, ?_⟩
        simp [devicesGo, hxf, hp]
      | ok d =>
        have h' : ∃ l ∈ xs, l.isEmpty = false ∧ isErrorResult (parseDeviceLine l) = true := by
          rcases h with ⟨l, hl, hne, herr⟩
          rcases List.mem_cons.mp hl with rfl | hmem
          · rw [hp] at herr
            simp [isErrorResult] at herr
          · exact ⟨l, hmem, hne, herr⟩
        rcases ih h' with ⟨l, hmem, hne, e, he, hgo⟩
        refine ⟨l, List.mem_cons_of_mem _ hmem, hne, e, he, ?_⟩
        simp [devicesGo, hxf, hp, hgo]

/-! ### Claim theorems: device-list parser -/

/-- C9: if any non-empty line of the devices-l body fails to parse, the
whole parse returns an `UnexpectedData` error, no partial device list
is returned, and the error is exactly the failing line's own error —
its message embeds that offending non-empty line. -/
theorem C9_parse_failure_aborts (body : List Char)
    (h : ∃ l ∈ splitOnNl body, l.isEmpty = false ∧ isErrorResult (parseDeviceLine l) = true) :
    ∃ l ∈ splitOnNl body, l.isEmpty = false ∧
      ∃ p s, parseDeviceLine l = .error (.UnexpectedData ((p ++ l ++ s).asString)) ∧
        devicesParse body = .error (.UnexpectedData ((p ++ l ++ s).asString)) := by
  rcases devicesGo_first_error (splitOnNl body) h with ⟨l, hmem, hne, e, he, hgo⟩
  rcases parseDeviceLine_error_cites l e he with ⟨p, s, rfl⟩
  exact ⟨l, hmem, hne, p, s, he, hgo⟩

/-- C9 witness: `C9_parse_failure_aborts` on a body whose single line
`xyz` has no space separator. -/
theorem C9_parse_failure_aborts_witness :
    ∃ l ∈ splitOnNl "xyz".data, l.isEmpty = false ∧
      ∃ p s, parseDeviceLine l = .error (.UnexpectedData ((p ++ l ++ s).asString)) ∧
        devicesParse "xyz".data = .error (.UnexpectedData ((p ++ l ++ s).asString)) :=
  C9_parse_failure_aborts "xyz".data ⟨"xyz".data, by decide, by decide, by decide⟩

/-- C3 evaluation: on the spec's own emulator line (scenario 2, which
has no device-path token), the regex's greedy `\S+` captures the first
tail token `product:sdk_gphone_x86` as `device_path` and leaves
`product` empty, so the "field present iff token present" claim fails
on the code.  The `no permissions` line of the claim (scenario 3) does
behave as stated. -/
theorem C3_attr_regex_eval :
    devicesParse ("emulator-5554        device product:sdk_gphone_x86 model:Android_SDK_built_for_x86 device:generic_x86 transport_id:1").data =
      .ok [{ serial := "emulator-5554".data
             id := 1
             transport_type := .Online .Device
             device_path := some "product:sdk_gphone_x86".data
             product := none
             model := some "Android_SDK_built_for_x86".data
             device := some "generic_x86".data }] ∧
    devicesParse ("abcd no permissions; see [http://developer.android.com/tools/device.html] transport_id:7").data =
      .ok [{ serial := "abcd".data
             id := 7
             transport_type := .NoPermissions
             device_path := none
             product := none
             model := none
             device := none }] := by
  refine ⟨by decide, by decide⟩

end Adb
